import Mathlib

/-!
Verification of cdifflib (CSequenceMatcher) against its specification.

The Python source (cdifflib.py) defines CSequenceMatcher, a subclass of
difflib.SequenceMatcher whose set_seq1, set_seq2, get_matching_blocks and
get_opcodes methods are visible in the repository; the hot-loop helpers
(find_longest_match, chain_b, matching_blocks) live in the C extension
module and are modelled here from the specification text.

The embedding is a shallow one: sequences are Lean lists, the stateful
matcher object is an explicit record threaded through the operations, a
Python exception becomes an explicit Bool flag in the result, and the
CPython reference-identity test (x is y) that guards the early-return
branches of set_seq1/set_seq2 is passed in as an explicit Boolean.
-/

variable {α : Type} [DecidableEq α]

/-- Opcode tags, matching the four string tags of get_opcodes. -/
inductive Tag
  | replace
  | delete
  | insert
  | equal
deriving DecidableEq, Repr

/-- A matching block (a_start, b_start, length), as in difflib.Match. -/
abbrev Block := Nat × Nat × Nat

/-- An edit-script entry (tag, i1, i2, j1, j2). -/
abbrev Opcode := Tag × Nat × Nat × Nat × Nat

/-- A Python sequence argument: either already a list, or some other
iterable (string, tuple, ...) carrying the same elements in order.
This models the isinstance(x, list) test in set_seq1/set_seq2. -/
inductive PySeq (α : Type)
  | pyList (l : List α)
  | pyOther (l : List α)
deriving DecidableEq, Repr

/-- The elements of a Python sequence, in order. -/
def PySeq.elems : PySeq α → List α
  | .pyList l => l
  | .pyOther l => l

/-- Whether the sequence is already a Python list. -/
def PySeq.isList : PySeq α → Bool
  | .pyList _ => true
  | .pyOther _ => false

/-- The normalisation step: if not isinstance(x, list) then x = list(x). -/
def PySeq.normalize (s : PySeq α) : PySeq α :=
  if s.isList then s else .pyList s.elems

/-- Ascending list of the positions at which x occurs in b. -/
def positions (b : List α) (x : α) : List Nat :=
  (List.range b.length).filter (fun j => decide (b.get? j = some x))

/-- Modelled from the spec: the C routine chain_b is not in this
repository's Python source.  Per spec sections 4.1 and 4.2 it builds the
position index b2j of the second sequence, classifies values as
user-declared junk (JunkSet) or auto-detected popular (PopularSet: only
with autojunk on, a second sequence of length at least 200, and strictly
more than len(B)/100 + 1 occurrences), removes junk and popular values
from the index entries used for matching, and returns the junk membership
test (JunkSet union PopularSet), the popular membership test, and the
index. -/
def chain_b (isjunk : Option (α → Bool)) (autojunk : Bool) (b : List α) :
    (α → Bool) × (α → Bool) × (α → List Nat) :=
  let userJunk : α → Bool := fun x =>
    match isjunk with
    | some p => p x
    | none => false
  let n := b.length
  let popular : α → Bool := fun x =>
    autojunk && decide (200 ≤ n) && !userJunk x && decide (n / 100 + 1 < b.count x)
  let junk : α → Bool := fun x => userJunk x || popular x
  let b2j : α → List Nat := fun x => if junk x then [] else positions b x
  (junk, popular, b2j)

/-- Lookup in the rolling run-length map, defaulting to 0 (j2len.get(j-1, 0)). -/
def j2lenGet (l : List (Nat × Nat)) (j : Nat) : Nat :=
  match l.find? (fun p => p.1 == j) with
  | some p => p.2
  | none => 0

/-- Modelled from the spec (section 4.3, primary search, inner loop): for
row i, scan the index positions of A[i] that fall inside the window
[blo, bhi), extending runs from the previous row and tracking the best
match seen; a strictly longer run replaces the best, so the first
candidate discovered wins ties. -/
def flRow (i blo bhi : Nat) (j2lenOld : List (Nat × Nat)) :
    List Nat → List (Nat × Nat) → Nat × Nat × Nat → List (Nat × Nat) × (Nat × Nat × Nat)
  | [], newj2len, best => (newj2len, best)
  | j :: js, newj2len, best =>
    if decide (blo ≤ j) && decide (j < bhi) then
      let k := if j = 0 then 1 else j2lenGet j2lenOld (j - 1) + 1
      let best2 := if best.2.2 < k then (i + 1 - k, j + 1 - k, k) else best
      flRow i blo bhi j2lenOld js ((j, k) :: newj2len) best2
    else
      flRow i blo bhi j2lenOld js newj2len best

/-- Modelled from the spec (section 4.3, primary search, outer loop):
iterate over the rows of the window of A, feeding each row's run-length
map into the next. -/
def flOuter (a : List α) (b2j : α → List Nat) (blo bhi : Nat) :
    List Nat → List (Nat × Nat) → Nat × Nat × Nat → Nat × Nat × Nat
  | [], _, best => best
  | i :: is, j2len, best =>
    let js := match a.get? i with
      | some x => b2j x
      | none => []
    let r := flRow i blo bhi j2len js [] best
    flOuter a b2j blo bhi is r.1 r.2

/-- Whether the pair (A[i], B[j]) exists, is equal, and B[j] passes the
classification test cond for the current extension phase. -/
def okPair (a b : List α) (cond : α → Bool) (i j : Nat) : Bool :=
  match a.get? i, b.get? j with
  | some x, some y => cond y && decide (x = y)
  | _, _ => false

/-- Modelled from the spec (section 4.3, boundary extension, backward
pass): extend the match one element at a time to the left while the
adjacent elements are equal and pass the phase's classification test.
The recursion is structural on besti, which decreases by one each step;
the while condition requires alo < besti, so besti = 0 stops. -/
def extendBackward (a b : List α) (cond : α → Bool) (alo blo : Nat) :
    Nat → Nat → Nat → Nat × Nat × Nat
  | 0, bestj, bestsize => (0, bestj, bestsize)
  | besti + 1, bestj, bestsize =>
    if decide (alo < besti + 1) && decide (blo < bestj) &&
        okPair a b cond besti (bestj - 1) then
      extendBackward a b cond alo blo besti (bestj - 1) (bestsize + 1)
    else
      (besti + 1, bestj, bestsize)

/-- Modelled from the spec (section 4.3, boundary extension, forward
pass): extend the match one element at a time to the right while the
adjacent elements are equal and pass the phase's classification test.
The fuel argument makes the recursion structural; the caller passes
ahi, which bounds the number of iterations because each one requires
besti + bestsize < ahi and increments bestsize. -/
def extendForward (a b : List α) (cond : α → Bool) (ahi bhi : Nat)
    (besti bestj : Nat) : Nat → Nat → Nat
  | bestsize, 0 => bestsize
  | bestsize, fuel + 1 =>
    if decide (besti + bestsize < ahi) && decide (bestj + bestsize < bhi) &&
        okPair a b cond (besti + bestsize) (bestj + bestsize) then
      extendForward a b cond ahi bhi besti bestj (bestsize + 1) fuel
    else
      bestsize

/-- Modelled from the spec: the C routine find_longest_match is not in
this repository's Python source.  Per spec section 4.3: primary
index-driven search starting from the degenerate match (alo, blo, 0),
then a non-junk backward and forward boundary extension, then a junk
backward and forward boundary extension. -/
def find_longest_match (a b : List α) (junk : α → Bool) (b2j : α → List Nat)
    (alo ahi blo bhi : Nat) : Nat × Nat × Nat :=
  let p := flOuter a b2j blo bhi (List.range' alo (ahi - alo)) [] (alo, blo, 0)
  let p1 := extendBackward a b (fun y => !junk y) alo blo p.1 p.2.1 p.2.2
  let s1 := extendForward a b (fun y => !junk y) ahi bhi p1.1 p1.2.1 p1.2.2 ahi
  let p2 := extendBackward a b junk alo blo p1.1 p1.2.1 s1
  let s2 := extendForward a b junk ahi bhi p2.1 p2.2.1 p2.2.2 ahi
  (p2.1, p2.2.1, s2)

/-- Modelled from the spec (section 4.4, work-list decomposition): pop a
sub-range, find its best match, record it when non-degenerate, and push
the non-empty flanking sub-ranges.  The fuel argument bounds the number
of iterations; the caller passes enough fuel for the loop to run to
exhaustion of the work list. -/
def mbLoop (a b : List α) (junk : α → Bool) (b2j : α → List Nat) :
    Nat → List (Nat × Nat × Nat × Nat) → List Block → List Block
  | 0, _, acc => acc
  | _ + 1, [], acc => acc
  | fuel + 1, (alo, ahi, blo, bhi) :: queue, acc =>
    let r := find_longest_match a b junk b2j alo ahi blo bhi
    if r.2.2 = 0 then
      mbLoop a b junk b2j fuel queue acc
    else
      let q1 := if decide (alo < r.1) && decide (blo < r.2.1) then
        (alo, r.1, blo, r.2.1) :: queue else queue
      let q2 := if decide (r.1 + r.2.2 < ahi) && decide (r.2.1 + r.2.2 < bhi) then
        (r.1 + r.2.2, ahi, r.2.1 + r.2.2, bhi) :: q1 else q1
      mbLoop a b junk b2j fuel q2 ((r.1, r.2.1, r.2.2) :: acc)

/-- Ordering of blocks by (a_start, b_start), the sort key of spec
section 4.4. -/
def blockLe (x y : Block) : Bool :=
  decide (x.1 < y.1) || (decide (x.1 = y.1) && decide (x.2.1 ≤ y.2.1))

/-- Insertion step of the insertion sort on blocks. -/
def insertBlock (x : Block) : List Block → List Block
  | [] => [x]
  | y :: ys => if blockLe x y then x :: y :: ys else y :: insertBlock x ys

/-- Insertion sort of blocks by (a_start, b_start). -/
def sortBlocks : List Block → List Block
  | [] => []
  | x :: xs => insertBlock x (sortBlocks xs)

/-- Modelled from the spec (section 4.4, adjacency merge): two
consecutive matches (i1,j1,k1), (i2,j2,k2) with i1+k1 = i2 and
j1+k1 = j2 are combined into (i1, j1, k1+k2). -/
def mergeAdjacent : Block → List Block → List Block
  | cur, [] => [cur]
  | (i1, j1, k1), (i2, j2, k2) :: rest =>
    if i1 + k1 = i2 ∧ j1 + k1 = j2 then
      mergeAdjacent (i1, j1, k1 + k2) rest
    else
      (i1, j1, k1) :: mergeAdjacent (i2, j2, k2) rest

/-- Adjacency merge over a whole (sorted) block list. -/
def mergeBlocks : List Block → List Block
  | [] => []
  | x :: xs => mergeAdjacent x xs

/-- Modelled from the spec: the C routine matching_blocks is not in this
repository's Python source.  Per spec section 4.4 it decomposes the full
range with the work list, sorts the recorded matches by
(a_start, b_start) and merges adjacent blocks.  The sentinel is appended
by the Python caller get_matching_blocks, not here. -/
def cMatchingBlocks (a b : List α) (junk : α → Bool) (b2j : α → List Nat) :
    List Block :=
  mergeBlocks (sortBlocks
    (mbLoop a b junk b2j (2 * a.length + 2) [(0, a.length, 0, b.length)] []))

/-- The tag selection of the get_opcodes loop body: Python's
tag = ''; if/elif chain; modelled with none for the empty tag. -/
def opcodeTag (i j ai bj : Nat) : Option Tag :=
  if i < ai ∧ j < bj then some .replace
  else if i < ai then some .delete
  else if j < bj then some .insert
  else none

/-- The opcodes one iteration of the get_opcodes loop appends for the
block (ai, bj, size) with cursors (i, j): the gap opcode when the tag is
non-empty, then the equal opcode when size is non-zero. -/
def blockOps (i j ai bj size : Nat) : List Opcode :=
  (match opcodeTag i j ai bj with
   | some t => [(t, i, ai, j, bj)]
   | none => []) ++
  (if size = 0 then [] else [(Tag.equal, ai, ai + size, bj, bj + size)])

/-- The loop of get_opcodes over the matching blocks, carrying the
cursors (i, j); after each block the cursors move to
(ai + size, bj + size). -/
def opcodesLoop : Nat → Nat → List Block → List Opcode
  | _, _, [] => []
  | i, j, (ai, bj, size) :: rest =>
    blockOps i j ai bj size ++ opcodesLoop (ai + size) (bj + size) rest

/-- State of a CSequenceMatcher object: the fields of the Python
instance that the visible methods read or write.  Function-valued
bookkeeping that an uninitialised instance lacks (isbjunk, isbpopular,
b2j, fullbcount) is wrapped in Option; hasattr(self, f) is f.isSome. -/
structure Matcher (α : Type) where
  a : PySeq α
  b : PySeq α
  isjunk : Option (α → Bool)
  autojunk : Bool
  fullbcount : Option (α → Nat)
  matching_blocks : Option (List Block)
  opcodes : Option (List Opcode)
  b2j : Option (α → List Nat)
  isbjunk : Option (α → Bool)
  isbpopular : Option (α → Bool)

/-- CSequenceMatcher.set_seq1.  The argument same is the outcome of the
CPython identity test (a is self.a); hashable x models whether hash(x)
succeeds.  Returns the updated state and whether an exception was
raised.  Note the method stores and normalises the new sequence before
the hash check and never touches the caches. -/
def Matcher.set_seq1 (hashable : α → Bool) (m : Matcher α) (aIn : PySeq α)
    (same : Bool) : Matcher α × Bool :=
  if same then (m, false)
  else
    let m1 : Matcher α := { m with a := aIn.normalize }
    if m1.a.elems.any (fun x => !hashable x) then (m1, true) else (m1, false)

/-- CSequenceMatcher.set_seq2.  The argument same is the outcome of the
CPython identity test (b is self.b).  Early return when same and isbjunk
exists; otherwise store b, normalise both stored sequences to lists,
hash-check a then b (raising before anything else changes), then clear
the caches and rebuild the index and junk/popular classification via
chain_b. -/
def Matcher.set_seq2 (hashable : α → Bool) (m : Matcher α) (bIn : PySeq α)
    (same : Bool) : Matcher α × Bool :=
  if same && m.isbjunk.isSome then (m, false)
  else
    let m1 : Matcher α := { m with a := m.a.normalize, b := bIn.normalize }
    if m1.a.elems.any (fun x => !hashable x) then (m1, true)
    else if m1.b.elems.any (fun x => !hashable x) then (m1, true)
    else
      let c := chain_b m.isjunk m.autojunk m1.b.elems
      ({ m1 with
          matching_blocks := none
          opcodes := none
          fullbcount := none
          isbjunk := some c.1
          isbpopular := some c.2.1
          b2j := some c.2.2 }, false)

/-- CSequenceMatcher.get_matching_blocks: return the cache when present,
otherwise run the C matching-block decomposition, append the sentinel
(len(a), len(b), 0), cache and return. -/
def Matcher.get_matching_blocks (m : Matcher α) : List Block × Matcher α :=
  match m.matching_blocks with
  | some mb => (mb, m)
  | none =>
    let junk := match m.isbjunk with
      | some p => p
      | none => fun _ => false
    let idx := match m.b2j with
      | some f => f
      | none => fun _ => []
    let mb := cMatchingBlocks m.a.elems m.b.elems junk idx ++
      [(m.a.elems.length, m.b.elems.length, 0)]
    (mb, { m with matching_blocks := some mb })

/-- CSequenceMatcher.get_opcodes (inherited SequenceMatcher.get_opcodes):
return the cache when present, otherwise walk the matching blocks with
the opcode loop, cache and return. -/
def Matcher.get_opcodes (m : Matcher α) : List Opcode × Matcher α :=
  match m.opcodes with
  | some ops => (ops, m)
  | none =>
    let p := Matcher.get_matching_blocks m
    let ops := opcodesLoop 0 0 p.1
    (ops, { p.2 with opcodes := some ops })

/-- A fresh matcher before any sequence is assigned: SequenceMatcher
sets a and b to None and __init__ immediately assigns both, so the
placeholder contents are never observed. -/
def mkMatcher (isjunk : Option (α → Bool)) (autojunk : Bool) : Matcher α :=
  { a := .pyList []
    b := .pyList []
    isjunk := isjunk
    autojunk := autojunk
    fullbcount := none
    matching_blocks := none
    opcodes := none
    b2j := none
    isbjunk := none
    isbpopular := none }

/-- CSequenceMatcher construction: SequenceMatcher.__init__ stores the
junk predicate and autojunk flag and calls set_seq1(a) then set_seq2(b);
an exception in set_seq1 propagates before set_seq2 runs.  Both identity
tests are against the None placeholders, hence false. -/
def initCSequenceMatcher (hashable : α → Bool) (isjunk : Option (α → Bool))
    (a b : PySeq α) (autojunk : Bool) : Matcher α × Bool :=
  let r1 := Matcher.set_seq1 hashable (mkMatcher isjunk autojunk) a false
  if r1.2 then (r1.1, true) else Matcher.set_seq2 hashable r1.1 b false

/-- A small concrete matcher state used to instantiate universally
quantified theorems at concrete inputs. -/
def defaultMatcher (a b : List Char) : Matcher Char :=
  { a := .pyList a
    b := .pyList b
    isjunk := none
    autojunk := true
    fullbcount := none
    matching_blocks := none
    opcodes := none
    b2j := some (fun x => positions b x)
    isbjunk := some (fun _ => false)
    isbpopular := some (fun _ => false) }

/-- Well-formedness of a matching-block list: blocks are ordered and
pairwise non-overlapping in both coordinates, i.e. each block ends at or
before the start of the next in both sequences. -/
def nonOverlapping : List Block → Bool
  | [] => true
  | [_] => true
  | (ai, bj, size) :: (ai2, bj2, size2) :: rest =>
    decide (ai + size ≤ ai2) && decide (bj + size ≤ bj2) &&
      nonOverlapping ((ai2, bj2, size2) :: rest)

/-- The last element of a block list. -/
def lastBlock : List Block → Option Block
  | [] => none
  | [x] => some x
  | _ :: y :: rest => lastBlock (y :: rest)

/-- An opcode list chains from cursors (i, j) to the endpoint fin when
each opcode starts exactly where the previous one ended (i1 of opcode
k+1 equals i2 of opcode k, likewise for j) and the run ends exactly at
fin; for the whole list of get_opcodes this says the first opcode has
i1 = j1 = 0, the runs are contiguous and gap-free, and the last opcode
ends at (len(A), len(B)). -/
def links : Nat → Nat → List Opcode → Nat × Nat → Bool
  | i, j, [], fin => decide (i = fin.1) && decide (j = fin.2)
  | i, j, (_, i1, i2, j1, j2) :: rest, fin =>
    decide (i1 = i) && decide (j1 = j) && links i2 j2 rest fin

/-- The cursors are at or before the first block of the list. -/
def headLe (i j : Nat) : List Block → Bool
  | [] => true
  | (ai, bj, _) :: _ => decide (i ≤ ai) && decide (j ≤ bj)

omit [DecidableEq α] in
/-- Normalisation does not change the elements of a sequence. -/
theorem PySeq.elems_normalize (s : PySeq α) : s.normalize.elems = s.elems := by
  cases s <;> rfl

omit [DecidableEq α] in
/-- Normalisation always yields the list form with the same elements. -/
theorem PySeq.normalize_eq (s : PySeq α) : s.normalize = PySeq.pyList s.elems := by
  cases s <;> rfl

omit [DecidableEq α] in
/-- The elements of an explicit list form. -/
theorem PySeq.elems_pyList (l : List α) : (PySeq.pyList l).elems = l := rfl

/-- Chaining composes over list append: a run from (i, j) to mid followed
by a run from mid to fin is a run from (i, j) to fin. -/
theorem links_append (ops1 : List Opcode) :
    ∀ (i j : Nat) (mid : Nat × Nat) (ops2 : List Opcode) (fin : Nat × Nat),
      links i j ops1 mid = true → links mid.1 mid.2 ops2 fin = true →
      links i j (ops1 ++ ops2) fin = true := by
  induction ops1 with
  | nil =>
    intro i j mid ops2 fin h1 h2
    simp only [links, Bool.and_eq_true, decide_eq_true_eq] at h1
    simpa [h1.1, h1.2] using h2
  | cons op rest ih =>
    intro i j mid ops2 fin h1 h2
    obtain ⟨t, i1, i2, j1, j2⟩ := op
    simp only [links, Bool.and_eq_true, decide_eq_true_eq, List.cons_append] at h1 ⊢
    exact ⟨⟨h1.1.1, h1.1.2⟩, ih i2 j2 mid ops2 fin h1.2 h2⟩

/-- The opcodes emitted for one block chain from the incoming cursors
(i, j) to the outgoing cursors (ai + size, bj + size), provided the
cursors do not lie past the block. -/
theorem blockOps_links (i j ai bj size : Nat) (hi : i ≤ ai) (hj : j ≤ bj) :
    links i j (blockOps i j ai bj size) (ai + size, bj + size) = true := by
  have tagPart : links i j
      (match opcodeTag i j ai bj with
       | some t => [(t, i, ai, j, bj)]
       | none => []) (ai, bj) = true := by
    unfold opcodeTag
    by_cases h1 : i < ai ∧ j < bj
    · simp [h1, links]
    · by_cases h2 : i < ai
      · have hjb : j = bj := by omega
        simp [h1, h2, links, hjb]
      · by_cases h3 : j < bj
        · have hia : i = ai := by omega
          simp [h1, h2, h3, links, hia]
        · have hia : i = ai := by omega
          have hjb : j = bj := by omega
          simp [h1, h2, h3, links, hia, hjb]
  have eqPart : links ai bj
      (if size = 0 then [] else [(Tag.equal, ai, ai + size, bj, bj + size)])
      (ai + size, bj + size) = true := by
    by_cases hs : size = 0
    · simp [hs, links]
    · simp [hs, links]
  unfold blockOps
  exact links_append _ i j (ai, bj) _ (ai + size, bj + size) tagPart eqPart

/-- The opcode loop chains from any cursors at or before the first block
to the sentinel's coordinates, for a well-formed block list. -/
theorem opcodesLoop_links (la lb : Nat) (blocks : List Block) :
    ∀ (i j : Nat), nonOverlapping blocks = true →
      lastBlock blocks = some (la, lb, 0) →
      headLe i j blocks = true →
      links i j (opcodesLoop i j blocks) (la, lb) = true := by
  induction blocks with
  | nil =>
    intro i j _ h2 _
    simp [lastBlock] at h2
  | cons blk rest ih =>
    obtain ⟨ai, bj, size⟩ := blk
    intro i j h1 h2 h3
    simp only [headLe, Bool.and_eq_true, decide_eq_true_eq] at h3
    cases rest with
    | nil =>
      simp only [lastBlock, Option.some.injEq, Prod.mk.injEq] at h2
      obtain ⟨hla, hlb, hsz⟩ := h2
      subst hsz
      rw [← hla, ← hlb]
      simp only [opcodesLoop, List.append_nil]
      simpa using blockOps_links i j ai bj 0 h3.1 h3.2
    | cons blk2 rest2 =>
      obtain ⟨ai2, bj2, size2⟩ := blk2
      simp only [nonOverlapping, Bool.and_eq_true, decide_eq_true_eq] at h1
      simp only [lastBlock] at h2
      simp only [opcodesLoop]
      apply links_append _ i j (ai + size, bj + size) _ (la, lb)
      · exact blockOps_links i j ai bj size h3.1 h3.2
      · apply ih (ai + size) (bj + size)
        · exact h1.2
        · exact h2
        · simp only [headLe, Bool.and_eq_true, decide_eq_true_eq]
          exact ⟨h1.1.1, h1.1.2⟩

/-- The last element of a list with a single block appended is that
block. -/
theorem lastBlock_append_single (l : List Block) (x : Block) :
    lastBlock (l ++ [x]) = some x := by
  induction l with
  | nil => rfl
  | cons y ys ih =>
    cases ys with
    | nil => rfl
    | cons z zs => simpa [lastBlock] using ih

/-- The gap tag is never the equal tag. -/
theorem opcodeTag_ne_equal (i j ai bj : Nat) :
    opcodeTag i j ai bj ≠ some Tag.equal := by
  unfold opcodeTag
  split_ifs <;> simp

/-- Claim C1: for A = "qabxcd" and B = "abycdf" with no junk predicate,
get_opcodes returns exactly the list
delete(0,1,0,0), equal(1,3,0,2), replace(3,4,2,3), equal(4,6,3,5),
insert(6,6,5,6). -/
theorem literal_scenario_opcodes :
    (Matcher.get_opcodes (initCSequenceMatcher (fun _ => true) none
      (PySeq.pyOther "qabxcd".toList) (PySeq.pyOther "abycdf".toList) true).1).1 =
    [(Tag.delete, 0, 1, 0, 0), (Tag.equal, 1, 3, 0, 2), (Tag.replace, 3, 4, 2, 3),
     (Tag.equal, 4, 6, 3, 5), (Tag.insert, 6, 6, 5, 6)] := by decide

/-- Claim C2: for every well-formed matching-block list (ordered and
non-overlapping in both coordinates, ending with the sentinel
(la, lb, 0)), the opcode list produced by the get_opcodes loop
partitions both index ranges into contiguous, ordered, gap-free runs:
the chain starts at cursors (0, 0), each opcode starts where the
previous one ended in both coordinates, and the last opcode ends at
(la, lb). -/
theorem get_opcodes_partition_chain (la lb : Nat) (blocks : List Block)
    (h1 : nonOverlapping blocks = true)
    (h2 : lastBlock blocks = some (la, lb, 0)) :
    links 0 0 (opcodesLoop 0 0 blocks) (la, lb) = true := by
  apply opcodesLoop_links la lb blocks 0 0 h1 h2
  cases blocks with
  | nil => rfl
  | cons blk rest =>
    obtain ⟨ai, bj, size⟩ := blk
    simp [headLe]

/-- Witness for get_opcodes_partition_chain at the block list of the
literal scenario. -/
theorem get_opcodes_partition_chain_witness :
    nonOverlapping [(1, 0, 2), (4, 3, 2), (6, 6, 0)] = true ∧
    lastBlock [(1, 0, 2), (4, 3, 2), (6, 6, 0)] = some (6, 6, 0) ∧
    links 0 0 (opcodesLoop 0 0 [(1, 0, 2), (4, 3, 2), (6, 6, 0)]) (6, 6) = true :=
  ⟨by decide, by decide, get_opcodes_partition_chain 6 6
    [(1, 0, 2), (4, 3, 2), (6, 6, 0)] (by decide) (by decide)⟩

/-- The equal opcode for a block belongs to its emitted opcodes exactly
when the block size is non-zero. -/
theorem equal_mem_blockOps (i j ai bj size : Nat) :
    ((Tag.equal, ai, ai + size, bj, bj + size) ∈ blockOps i j ai bj size) ↔
      0 < size := by
  unfold blockOps
  cases hT : opcodeTag i j ai bj with
  | none =>
    cases size with
    | zero => simp
    | succ n => simp
  | some t =>
    have ht : Tag.equal ≠ t := by
      intro he
      exact opcodeTag_ne_equal i j ai bj (by rw [hT, ← he])
    cases size with
    | zero => simp [Prod.ext_iff, ht]
    | succ n => simp

/-- A zero-size block (the sentinel) never contributes an equal opcode. -/
theorem blockOps_zero_no_equal (i j ai bj : Nat) :
    ∀ op ∈ blockOps i j ai bj 0, op.1 ≠ Tag.equal := by
  unfold blockOps
  cases hT : opcodeTag i j ai bj with
  | none => simp
  | some t =>
    have ht : t ≠ Tag.equal := by
      intro he
      exact opcodeTag_ne_equal i j ai bj (by rw [hT, he])
    simp [ht]

/-- A zero-size block with a remaining gap still emits an opcode. -/
theorem blockOps_gap_ne_nil (i j ai bj : Nat) (h : i < ai ∨ j < bj) :
    blockOps i j ai bj 0 ≠ [] := by
  unfold blockOps opcodeTag
  rcases h with h | h
  · by_cases hjb : j < bj <;> simp [h, hjb]
  · by_cases hia : i < ai <;> simp [h, hia]

/-- Claim C3: each step of the get_opcodes loop over a block
(ai, bj, size) with cursors (i, j) at or before it emits a replace
opcode when i < ai and j < bj, else a delete opcode when i < ai (and
then j = bj), else an insert opcode when j < bj (and then i = ai), and
an equal opcode (ai, ai+size, bj, bj+size) exactly when size > 0; the
zero-size sentinel is never emitted as an equal opcode but still
triggers a final replace, delete or insert when a trailing gap
remains. -/
theorem get_opcodes_step_cases (i j ai bj size : Nat) (rest : List Block)
    (hi : i ≤ ai) (hj : j ≤ bj) :
    opcodesLoop i j ((ai, bj, size) :: rest) =
        blockOps i j ai bj size ++ opcodesLoop (ai + size) (bj + size) rest ∧
    (i < ai ∧ j < bj → opcodeTag i j ai bj = some Tag.replace) ∧
    (i < ai ∧ ¬ j < bj → opcodeTag i j ai bj = some Tag.delete ∧ j = bj) ∧
    (¬ i < ai ∧ j < bj → opcodeTag i j ai bj = some Tag.insert ∧ i = ai) ∧
    (¬ i < ai ∧ ¬ j < bj → opcodeTag i j ai bj = none ∧ i = ai ∧ j = bj) ∧
    ((Tag.equal, ai, ai + size, bj, bj + size) ∈ blockOps i j ai bj size ↔
      0 < size) ∧
    (∀ op ∈ blockOps i j ai bj 0, op.1 ≠ Tag.equal) ∧
    (size = 0 → i < ai ∨ j < bj → blockOps i j ai bj size ≠ []) := by
  refine ⟨rfl, ?_, ?_, ?_, ?_, equal_mem_blockOps i j ai bj size,
    blockOps_zero_no_equal i j ai bj, ?_⟩
  · rintro ⟨h1, h2⟩
    simp [opcodeTag, h1, h2]
  · rintro ⟨h1, h2⟩
    exact ⟨by simp [opcodeTag, h1, h2], by omega⟩
  · rintro ⟨h1, h2⟩
    exact ⟨by simp [opcodeTag, h1, h2], by omega⟩
  · rintro ⟨h1, h2⟩
    exact ⟨by simp [opcodeTag, h1, h2], by omega, by omega⟩
  · intro hs hgap
    subst hs
    exact blockOps_gap_ne_nil i j ai bj hgap

/-- Witness for get_opcodes_step_cases at concrete cursors and block. -/
theorem get_opcodes_step_cases_witness :
    (0 : Nat) ≤ 1 ∧ (0 : Nat) ≤ 1 ∧
    ((Tag.equal, 1, 1 + 2, 1, 1 + 2) ∈ blockOps 0 0 1 1 2 ↔ 0 < 2) :=
  ⟨by decide, by decide,
    (get_opcodes_step_cases 0 0 1 1 2 [] (by decide) (by decide)).2.2.2.2.2.1⟩

/-- Claim C4: with both sequences empty, get_matching_blocks returns
exactly the sentinel list [(0, 0, 0)] and get_opcodes returns the empty
list; with A empty and B = "x", get_opcodes returns exactly
[(insert, 0, 0, 0, 1)]. -/
theorem empty_inputs_blocks_and_opcodes :
    (Matcher.get_matching_blocks (initCSequenceMatcher (fun _ => true) none
      (PySeq.pyOther "".toList) (PySeq.pyOther "".toList) true).1).1 = [(0, 0, 0)] ∧
    (Matcher.get_opcodes (initCSequenceMatcher (fun _ => true) none
      (PySeq.pyOther "".toList) (PySeq.pyOther "".toList) true).1).1 = [] ∧
    (Matcher.get_opcodes (initCSequenceMatcher (fun _ => true) none
      (PySeq.pyOther "".toList) (PySeq.pyOther "x".toList) true).1).1 =
      [(Tag.insert, 0, 0, 0, 1)] := by decide

/-- Claim C5: with the sequences fixed, calling get_matching_blocks
twice returns the same result both times and the second call performs
no recomputation: it returns exactly the cached matching_blocks field
and leaves the state unchanged; likewise for get_opcodes and the cached
opcodes field. -/
theorem get_results_idempotent_cached (m : Matcher α) :
    (Matcher.get_matching_blocks (Matcher.get_matching_blocks m).2).1 =
      (Matcher.get_matching_blocks m).1 ∧
    (Matcher.get_matching_blocks (Matcher.get_matching_blocks m).2).2 =
      (Matcher.get_matching_blocks m).2 ∧
    (Matcher.get_matching_blocks m).2.matching_blocks =
      some (Matcher.get_matching_blocks m).1 ∧
    (Matcher.get_opcodes (Matcher.get_opcodes m).2).1 =
      (Matcher.get_opcodes m).1 ∧
    (Matcher.get_opcodes (Matcher.get_opcodes m).2).2 =
      (Matcher.get_opcodes m).2 ∧
    (Matcher.get_opcodes m).2.opcodes = some (Matcher.get_opcodes m).1 := by
  have hmb : (Matcher.get_matching_blocks (Matcher.get_matching_blocks m).2).1 =
        (Matcher.get_matching_blocks m).1 ∧
      (Matcher.get_matching_blocks (Matcher.get_matching_blocks m).2).2 =
        (Matcher.get_matching_blocks m).2 ∧
      (Matcher.get_matching_blocks m).2.matching_blocks =
        some (Matcher.get_matching_blocks m).1 := by
    cases h : m.matching_blocks with
    | some mb => refine ⟨?_, ?_, ?_⟩ <;> simp [Matcher.get_matching_blocks, h]
    | none => refine ⟨?_, ?_, ?_⟩ <;> simp [Matcher.get_matching_blocks, h]
  have hops : (Matcher.get_opcodes (Matcher.get_opcodes m).2).1 =
        (Matcher.get_opcodes m).1 ∧
      (Matcher.get_opcodes (Matcher.get_opcodes m).2).2 =
        (Matcher.get_opcodes m).2 ∧
      (Matcher.get_opcodes m).2.opcodes = some (Matcher.get_opcodes m).1 := by
    cases h : m.opcodes with
    | some ops => refine ⟨?_, ?_, ?_⟩ <;> simp [Matcher.get_opcodes, h]
    | none => refine ⟨?_, ?_, ?_⟩ <;> simp [Matcher.get_opcodes, h]
  exact ⟨hmb.1, hmb.2.1, hmb.2.2, hops.1, hops.2.1, hops.2.2⟩

/-- Witness for get_results_idempotent_cached at a concrete matcher. -/
theorem get_results_idempotent_cached_witness :
    (Matcher.get_opcodes (Matcher.get_opcodes (defaultMatcher ['a'] ['a'])).2).1 =
      (Matcher.get_opcodes (defaultMatcher ['a'] ['a'])).1 ∧
    (Matcher.get_opcodes (defaultMatcher ['a'] ['a'])).2.opcodes =
      some (Matcher.get_opcodes (defaultMatcher ['a'] ['a'])).1 :=
  ⟨(get_results_idempotent_cached (defaultMatcher ['a'] ['a'])).2.2.2.1,
   (get_results_idempotent_cached (defaultMatcher ['a'] ['a'])).2.2.2.2.2⟩

/-- Claim C6 evidence: set_seq1 does not reset the cached opcodes.
After diffing "ab" against "ab" (one equal opcode) and reassigning the
first sequence to "xy", get_opcodes still returns the stale cached
equal opcode, while recomputing the matching blocks and opcodes from
the stored sequences "xy" and "ab" yields a replace opcode. -/
theorem set_seq1_keeps_stale_opcodes :
    (Matcher.get_opcodes ((Matcher.set_seq1 (fun _ => true)
        (Matcher.get_opcodes (initCSequenceMatcher (fun _ => true) none
          (PySeq.pyOther "ab".toList) (PySeq.pyOther "ab".toList) true).1).2
        (PySeq.pyOther "xy".toList) false).1)).1 = [(Tag.equal, 0, 2, 0, 2)] ∧
    ((Matcher.set_seq1 (fun _ => true)
        (Matcher.get_opcodes (initCSequenceMatcher (fun _ => true) none
          (PySeq.pyOther "ab".toList) (PySeq.pyOther "ab".toList) true).1).2
        (PySeq.pyOther "xy".toList) false).1).opcodes =
      some [(Tag.equal, 0, 2, 0, 2)] ∧
    opcodesLoop 0 0 (cMatchingBlocks "xy".toList "ab".toList (fun _ => false)
      (chain_b (none : Option (Char → Bool)) true "ab".toList).2.2 ++ [(2, 2, 0)]) =
      [(Tag.replace, 0, 2, 0, 2)] :=
  ⟨by decide, by decide, by decide⟩

/-- Claim C7: set_seq2 is a no-op when the identity test b is self.b
succeeds and the junk classification state (isbjunk) already exists:
the returned state is exactly the input state, every field unchanged,
and no exception is raised. -/
theorem set_seq2_identity_noop (hashable : α → Bool) (m : Matcher α)
    (b : PySeq α) (h : m.isbjunk.isSome = true) :
    Matcher.set_seq2 hashable m b true = (m, false) := by
  simp [Matcher.set_seq2, h]

/-- Witness for set_seq2_identity_noop at a concrete matcher. -/
theorem set_seq2_identity_noop_witness :
    (defaultMatcher [] []).isbjunk.isSome = true ∧
    Matcher.set_seq2 (fun _ => true) (defaultMatcher [] [])
      (PySeq.pyList ['a']) true = (defaultMatcher [] [], false) :=
  ⟨rfl, set_seq2_identity_noop (fun _ => true) (defaultMatcher [] [])
    (PySeq.pyList ['a']) rfl⟩

/-- Claim C8: assigning a sequence with a non-hashable element raises at
assignment time: set_seq1 (on a genuinely new sequence) raises exactly
when some element of the new first sequence is unhashable and never
touches the index, and set_seq2 (on a genuinely new sequence) raises
exactly when some element of the stored first sequence or of the new
second sequence is unhashable, and in that case the index, junk state
and caches are all left unbuilt and unchanged. -/
theorem set_seq_hash_fail_fast (hashable : α → Bool) (m : Matcher α)
    (aIn bIn : PySeq α) :
    ((Matcher.set_seq1 hashable m aIn false).2 = true ↔
      aIn.elems.any (fun x => !hashable x) = true) ∧
    (Matcher.set_seq1 hashable m aIn false).1.b2j = m.b2j ∧
    ((Matcher.set_seq2 hashable m bIn false).2 = true ↔
      (m.a.elems.any (fun x => !hashable x) ||
        bIn.elems.any (fun x => !hashable x)) = true) ∧
    ((Matcher.set_seq2 hashable m bIn false).2 = true →
      (Matcher.set_seq2 hashable m bIn false).1.b2j = m.b2j ∧
      (Matcher.set_seq2 hashable m bIn false).1.isbjunk = m.isbjunk ∧
      (Matcher.set_seq2 hashable m bIn false).1.matching_blocks =
        m.matching_blocks ∧
      (Matcher.set_seq2 hashable m bIn false).1.opcodes = m.opcodes) := by
  have ea := PySeq.elems_normalize aIn
  have eb := PySeq.elems_normalize bIn
  have eA := PySeq.elems_normalize m.a
  refine ⟨?_, ?_, ?_, ?_⟩
  · by_cases ha : aIn.elems.any (fun x => !hashable x) = true
    · simp [Matcher.set_seq1, ea, ha]
    · simp [Matcher.set_seq1, ea, ha]
  · by_cases ha : aIn.elems.any (fun x => !hashable x) = true
    · simp [Matcher.set_seq1, ea, ha]
    · simp [Matcher.set_seq1, ea, ha]
  · by_cases hA : m.a.elems.any (fun x => !hashable x) = true
    · simp [Matcher.set_seq2, eA, hA]
    · by_cases hb : bIn.elems.any (fun x => !hashable x) = true
      · simp [Matcher.set_seq2, eA, eb, hA, hb]
      · simp [Matcher.set_seq2, eA, eb, hA, hb]
  · intro hr
    by_cases hA : m.a.elems.any (fun x => !hashable x) = true
    · refine ⟨?_, ?_, ?_, ?_⟩ <;> simp [Matcher.set_seq2, eA, hA]
    · by_cases hb : bIn.elems.any (fun x => !hashable x) = true
      · refine ⟨?_, ?_, ?_, ?_⟩ <;> simp [Matcher.set_seq2, eA, eb, hA, hb]
      · exfalso
        simp [Matcher.set_seq2, eA, eb, hA, hb] at hr

/-- Witness for set_seq_hash_fail_fast: assigning a sequence holding an
unhashable element makes set_seq1 raise. -/
theorem set_seq_hash_fail_fast_witness :
    (Matcher.set_seq1 (fun c => decide (c ≠ 'z')) (defaultMatcher [] [])
      (PySeq.pyOther ['z']) false).2 = true :=
  (set_seq_hash_fail_fast (fun c => decide (c ≠ 'z')) (defaultMatcher [] [])
    (PySeq.pyOther ['z']) (PySeq.pyList ['z'])).1.mpr (by decide)

/-- Claim C9: for any state whose matching-block cache is empty, the
first get_matching_blocks call returns a non-empty list whose last
element is exactly the sentinel (len(a), len(b), 0), leaves both
sequences unchanged, and every subsequent call returns the identical
cached result and state. -/
theorem get_matching_blocks_sentinel (m : Matcher α)
    (h : m.matching_blocks = none) :
    (Matcher.get_matching_blocks m).1 ≠ [] ∧
    lastBlock (Matcher.get_matching_blocks m).1 =
      some (m.a.elems.length, m.b.elems.length, 0) ∧
    (Matcher.get_matching_blocks m).2.a = m.a ∧
    (Matcher.get_matching_blocks m).2.b = m.b ∧
    Matcher.get_matching_blocks (Matcher.get_matching_blocks m).2 =
      Matcher.get_matching_blocks m := by
  refine ⟨?_, ?_, ?_, ?_, ?_⟩
  · simp [Matcher.get_matching_blocks, h]
  · simp [Matcher.get_matching_blocks, h, lastBlock_append_single]
  · simp [Matcher.get_matching_blocks, h]
  · simp [Matcher.get_matching_blocks, h]
  · simp [Matcher.get_matching_blocks, h]

/-- Witness for get_matching_blocks_sentinel at a concrete matcher. -/
theorem get_matching_blocks_sentinel_witness :
    (defaultMatcher ['a'] ['b']).matching_blocks = none ∧
    lastBlock (Matcher.get_matching_blocks (defaultMatcher ['a'] ['b'])).1 =
      some ((defaultMatcher ['a'] ['b']).a.elems.length,
        (defaultMatcher ['a'] ['b']).b.elems.length, 0) :=
  ⟨rfl, (get_matching_blocks_sentinel (defaultMatcher ['a'] ['b']) rfl).2.1⟩

/-- Claim C10: after set_seq1 with a genuinely new sequence the stored
first sequence is a list holding exactly the elements of the argument
in order; after set_seq2 the stored second sequence is a list holding
exactly the elements of the argument and the stored first sequence is
also normalised to a list; and passing a non-list sequence gives the
same result as passing the corresponding list. -/
theorem set_seq_normalizes_to_list (hashable : α → Bool) (m : Matcher α)
    (aIn bIn : PySeq α) (l : List α) :
    (Matcher.set_seq1 hashable m aIn false).1.a = PySeq.pyList aIn.elems ∧
    (Matcher.set_seq2 hashable m bIn false).1.b = PySeq.pyList bIn.elems ∧
    (Matcher.set_seq2 hashable m bIn false).1.a = PySeq.pyList m.a.elems ∧
    Matcher.set_seq1 hashable m (PySeq.pyOther l) false =
      Matcher.set_seq1 hashable m (PySeq.pyList l) false ∧
    Matcher.set_seq2 hashable m (PySeq.pyOther l) false =
      Matcher.set_seq2 hashable m (PySeq.pyList l) false := by
  refine ⟨?_, ?_, ?_, ?_, ?_⟩
  · by_cases ha : aIn.elems.any (fun x => !hashable x) = true <;>
      simp [Matcher.set_seq1, PySeq.normalize_eq, PySeq.elems_pyList, ha]
  · by_cases hA : m.a.elems.any (fun x => !hashable x) = true
    · simp [Matcher.set_seq2, PySeq.normalize_eq, PySeq.elems_pyList, hA]
    · by_cases hb : bIn.elems.any (fun x => !hashable x) = true <;>
        simp [Matcher.set_seq2, PySeq.normalize_eq, PySeq.elems_pyList, hA, hb]
  · by_cases hA : m.a.elems.any (fun x => !hashable x) = true
    · simp [Matcher.set_seq2, PySeq.normalize_eq, PySeq.elems_pyList, hA]
    · by_cases hb : bIn.elems.any (fun x => !hashable x) = true <;>
        simp [Matcher.set_seq2, PySeq.normalize_eq, PySeq.elems_pyList, hA, hb]
  · rfl
  · rfl

/-- Witness for set_seq_normalizes_to_list at concrete inputs. -/
theorem set_seq_normalizes_to_list_witness :
    (Matcher.set_seq1 (fun _ => true) (defaultMatcher [] [])
      (PySeq.pyOther ['q']) false).1.a = PySeq.pyList (PySeq.pyOther ['q']).elems :=
  (set_seq_normalizes_to_list (fun _ => true) (defaultMatcher [] [])
    (PySeq.pyOther ['q']) (PySeq.pyList ['r']) ['s']).1
